import Mathlib

/-!
# Verification of the `Dom` helper class (src/Dom.ts)

A shallow embedding of the `Dom` static class: a stateless collection of
pass-through wrappers over browser document/element primitives.

Modelling choices, all taken from the source:

* A JavaScript runtime value passed to an optional parameter is modelled by
  `JSValue` (undefined, null, string, number, boolean); the `typeof x === "..."`
  checks in the source become pattern matches on `JSValue`.
* An element is a tree node carrying the pieces of element state the class
  touches: tag name, id, class list, attribute list, text content (nullable),
  innerHTML, form value, checked/disabled flags and the inline
  `style.display` string.  Mutating methods return the updated element.
* The document is the ordered list of its elements (document order) plus a
  title.  The live platform collections (`getElementsByClassName`,
  `getElementsByTagName`, `querySelectorAll`) are modelled as the list of
  elements matching at call time; the wrapper's copy loop
  (`new Array(n); for i ... elements[i] = coll[i]`) is `copyCollection`,
  an index-by-index copy into a fresh fixed-length list.
* A CSS selector is modelled as a match predicate `Element → Bool`; a scope
  (the `parent` argument) is the list of candidate elements it contains.
-/

/-- A JavaScript runtime value, as far as the `typeof` checks and the
`String(x)` coercion in `Dom.ts` can observe it. -/
inductive JSValue : Type where
  | undef : JSValue
  | null : JSValue
  | str : String → JSValue
  | num : Int → JSValue
  | bool : Bool → JSValue
  deriving DecidableEq

/-- `typeof v === "undefined"`. -/
def JSValue.isUndefined : JSValue → Bool
  | .undef => true
  | _ => false

/-- `typeof v === "string"`. -/
def JSValue.isString : JSValue → Bool
  | .str _ => true
  | _ => false

/-- `typeof v === "boolean"`. -/
def JSValue.isBool : JSValue → Bool
  | .bool _ => true
  | _ => false

/-- The JavaScript `String(v)` coercion. -/
def JSValue.toJSString : JSValue → String
  | .undef => "undefined"
  | .null => "null"
  | .str s => s
  | .num n => toString n
  | .bool b => if b then "true" else "false"

/-- The per-element state touched by `Dom.ts`: tag, id, class list, attribute
list (association list in attribute order), nullable `textContent`,
`innerHTML`, form `value`, `checked`, `disabled`, and the inline
`style.display` string (`""` when no inline value is set). -/
structure ElementData : Type where
  tagName : String
  idAttr : String
  classList : List String
  attributes : List (String × String)
  textContent : Option String
  innerHTML : String
  value : String
  checked : Bool
  disabled : Bool
  styleDisplay : String
  deriving DecidableEq

/-- A DOM element: its own state plus its list of child elements. -/
inductive Element : Type where
  | node : ElementData → List Element → Element

/-- The element's own state. -/
def Element.data : Element → ElementData
  | .node d _ => d

/-- The element's `children` collection. -/
def Element.children : Element → List Element
  | .node _ c => c

/-- Update the element's own state, keeping its children. -/
def Element.withData (e : Element) (d : ElementData) : Element :=
  .node d e.children

/-- The host document: its elements in document order, and its title. -/
structure Doc : Type where
  elements : List Element
  title : String

/-- `classList.contains(c)` on a raw token list. -/
def listContains : List String → String → Bool
  | [], _ => false
  | x :: xs, c => if x == c then true else listContains xs c

/-- `classList.remove(c)` on a raw token list: removes every occurrence. -/
def listRemove : List String → String → List String
  | [], _ => []
  | x :: xs, c => if x == c then listRemove xs c else x :: listRemove xs c

/-- Set a key in an association list: overwrite the first binding if the key
is present, append a new binding otherwise. -/
def setAssoc : List (String × String) → String → String → List (String × String)
  | [], n, v => [(n, v)]
  | (k, w) :: rest, n, v =>
      if k == n then (n, v) :: rest else (k, w) :: setAssoc rest n v

/-- Look up a key in an association list (first binding wins). -/
def getAssoc : List (String × String) → String → Option String
  | [], _ => none
  | (k, w) :: rest, n => if k == n then some w else getAssoc rest n

/-- Platform `document.getElementById`: first element with the id, else null. -/
def getElementById (doc : Doc) (id : String) : Option Element :=
  doc.elements.find? (fun e => e.data.idAttr == id)

/-- Platform `element.classList.contains(c)`. -/
def classListContains (e : Element) (c : String) : Bool :=
  listContains e.data.classList c

/-- Platform `element.classList.add(c)`: appends the token unless present. -/
def classListAdd (e : Element) (c : String) : Element :=
  if classListContains e c then e
  else e.withData { e.data with classList := e.data.classList ++ [c] }

/-- Platform `element.classList.remove(c)`: removes every occurrence. -/
def classListRemove (e : Element) (c : String) : Element :=
  e.withData { e.data with classList := listRemove e.data.classList c }

/-- Platform `element.getAttribute(name)`: the value, or null when absent. -/
def getAttribute (e : Element) (name : String) : Option String :=
  getAssoc e.data.attributes name

/-- Platform `element.setAttribute(name, value)`. -/
def setAttribute (e : Element) (name value : String) : Element :=
  e.withData { e.data with attributes := setAssoc e.data.attributes name value }

/-- Does the element carry the given class?  (Match predicate behind
`document.getElementsByClassName`.) -/
def hasClass (e : Element) (c : String) : Bool :=
  listContains e.data.classList c

/-- Platform `document.getElementsByClassName(c)`: the elements carrying the
class, in document order, as matched at call time. -/
def getElementsByClassName (doc : Doc) (c : String) : List Element :=
  doc.elements.filter (fun e => hasClass e c)

/-- Platform `document.getElementsByTagName(t)`: the elements with the tag,
in document order, as matched at call time. -/
def getElementsByTagName (doc : Doc) (t : String) : List Element :=
  doc.elements.filter (fun e => e.data.tagName == t)

/-- Platform `parent.querySelector(sel)`: first match in the scope, else
null.  A selector is modelled as its match predicate. -/
def querySelectorNative (sel : Element → Bool) (scope : List Element) :
    Option Element :=
  scope.find? sel

/-- Platform `parent.querySelectorAll(sel)`: all matches in the scope, in
document order, as matched at call time. -/
def querySelectorAllNative (sel : Element → Bool) (scope : List Element) :
    List Element :=
  scope.filter sel

/-- The copy loop the wrapper runs over a live platform collection:
`new Array<T>(coll.length)` followed by `elements[i] = coll[i]` for each
index — an index-by-index copy into a fresh fixed-length array. -/
def copyCollection (coll : List Element) : List Element :=
  List.ofFn (fun i : Fin coll.length => coll.get i)

namespace Dom

/-- `Dom.gebid` — `document.getElementById(id) as T`. -/
def gebid (doc : Doc) (id : String) : Option Element :=
  getElementById doc id

/-- `Dom.gebcn` — copies `document.getElementsByClassName(className)` into a
fresh array. -/
def gebcn (doc : Doc) (className : String) : List Element :=
  copyCollection (getElementsByClassName doc className)

/-- `Dom.gebtn` — copies `document.getElementsByTagName(tagName)` into a
fresh array. -/
def gebtn (doc : Doc) (tagName : String) : List Element :=
  copyCollection (getElementsByTagName doc tagName)

/-- `Dom.qs` — `parent.querySelector(selector) as T`. -/
def qs (sel : Element → Bool) (scope : List Element) : Option Element :=
  querySelectorNative sel scope

/-- `Dom.qsAll` — copies `parent.querySelectorAll(selector)` into a fresh
array. -/
def qsAll (sel : Element → Bool) (scope : List Element) : List Element :=
  copyCollection (querySelectorAllNative sel scope)

/-- `Dom.child` — `element.children[index] as T`; undefined out of range. -/
def child (element : Element) (index : Nat) : Option Element :=
  element.children[index]?

/-- `Dom.show` — `element.style.display = "block"`. -/
def show' (element : Element) : Element :=
  element.withData { element.data with styleDisplay := "block" }

/-- `Dom.hide` — `element.style.display = "none"`. -/
def hide (element : Element) : Element :=
  element.withData { element.data with styleDisplay := "none" }

/-- `Dom.visible` — sets `style.display` when the argument is a boolean
(`typeof isVisible === "boolean"`), then returns
`element.style.display !== "none"` together with the (possibly updated)
element. -/
def visible (element : Element) (isVisible : JSValue) : Bool × Element :=
  let element' :=
    match isVisible with
    | .bool b =>
        element.withData
          { element.data with styleDisplay := if b then "block" else "none" }
    | _ => element
  (element'.data.styleDisplay != "none", element')

/-- `Dom.text` — read `element.textContent || ""` when the argument is
undefined, otherwise `element.textContent = String(text)` (the assignment
expression's value is the assigned string). -/
def text (element : Element) (t : JSValue) : String × Element :=
  match t with
  | .undef => (element.data.textContent.getD "", element)
  | v =>
      let s := v.toJSString
      (s, element.withData { element.data with textContent := some s })

/-- `Dom.value` — read `element.value` when the argument is undefined,
otherwise `element.value = String(value)`. -/
def value (element : Element) (v : JSValue) : String × Element :=
  match v with
  | .undef => (element.data.value, element)
  | w =>
      let s := w.toJSString
      (s, element.withData { element.data with value := s })

/-- `Dom.innerHtml` — write `element.innerHTML = html` only when
`typeof html === "string"`; any other argument reads `element.innerHTML`. -/
def innerHtml (element : Element) (html : JSValue) : String × Element :=
  match html with
  | .str s => (s, element.withData { element.data with innerHTML := s })
  | _ => (element.data.innerHTML, element)

/-- `Dom.checked` — write `element.checked = isChecked` only when
`typeof isChecked === "boolean"`; any other argument reads it. -/
def checked (element : Element) (isChecked : JSValue) : Bool × Element :=
  match isChecked with
  | .bool b => (b, element.withData { element.data with checked := b })
  | _ => (element.data.checked, element)

/-- `Dom.disabled` — write `element.disabled = isDisabled` only when
`typeof isDisabled === "boolean"`; any other argument reads it. -/
def disabled (element : Element) (isDisabled : JSValue) : Bool × Element :=
  match isDisabled with
  | .bool b => (b, element.withData { element.data with disabled := b })
  | _ => (element.data.disabled, element)

/-- `Dom.attribute` — `setAttribute(name, value)` when
`typeof value === "string"`, then always returns
`element.getAttribute(name) || ""`. -/
def attr (element : Element) (name : String) (v : JSValue) : String × Element :=
  let element' :=
    match v with
    | .str s => setAttribute element name s
    | _ => element
  ((getAttribute element' name).getD "", element')

/-- `Dom.addClass` — `element.classList.add(...className)`. -/
def addClass (element : Element) (classNames : List String) : Element :=
  classNames.foldl classListAdd element

/-- `Dom.removeClass` — `element.classList.remove(...className)`. -/
def removeClass (element : Element) (classNames : List String) : Element :=
  classNames.foldl classListRemove element

/-- `Dom.swapClass` — `classList.remove(classToRemove)` then
`classList.add(classToAdd)`. -/
def swapClass (element : Element) (classToRemove classToAdd : String) :
    Element :=
  classListAdd (classListRemove element classToRemove) classToAdd

/-- `Dom.toggleClass` — remove the class when present, add it otherwise. -/
def toggleClass (element : Element) (className : String) : Element :=
  if classListContains element className then classListRemove element className
  else classListAdd element className

/-- `Dom.ensureClass` — add the classes when the condition holds, remove
them otherwise. -/
def ensureClass (element : Element) (cond : Bool)
    (classNames : List String) : Element :=
  if cond then addClass element classNames else removeClass element classNames

end Dom

/-- A sample element with text/innerHTML `"abc"`, no classes, no
attributes. -/
def elSample : Element :=
  .node { tagName := "div", idAttr := "s0", classList := [], attributes := [],
          textContent := some "abc", innerHTML := "abc", value := "",
          checked := false, disabled := false, styleDisplay := "" } []

/-- A sample element carrying classes `"a"` and `"x"`. -/
def elWithA : Element :=
  .node { tagName := "span", idAttr := "s1", classList := ["a", "x"],
          attributes := [], textContent := none, innerHTML := "",
          value := "", checked := false, disabled := false,
          styleDisplay := "" } []

/-- A document with no elements. -/
def docEmpty : Doc :=
  { elements := [], title := "" }

/-- A selector matching nothing. -/
def selFalse : Element → Bool :=
  fun _ => false

theorem copyCollection_eq (coll : List Element) : copyCollection coll = coll :=
  List.ofFn_get coll

theorem listContains_append_single (l : List String) (c c' : String) :
    listContains (l ++ [c]) c' = (listContains l c' || (c == c')) := by
  induction l with
  | nil => by_cases h : c == c' <;> simp [listContains, h]
  | cons x xs ih =>
      by_cases h : x == c' <;> simp [listContains, h, ih]

theorem listContains_listRemove_self (l : List String) (c : String) :
    listContains (listRemove l c) c = false := by
  induction l with
  | nil => rfl
  | cons x xs ih =>
      by_cases h : x == c <;> simp [listRemove, listContains, h, ih]

theorem listContains_listRemove_ne (l : List String) (c c' : String)
    (h : c ≠ c') : listContains (listRemove l c) c' = listContains l c' := by
  induction l with
  | nil => rfl
  | cons x xs ih =>
      by_cases hx : x == c
      · have hx' : x = c := by simpa [beq_iff_eq] using hx
        have : (x == c') = false := by
          simp [beq_iff_eq, hx']
          exact h
        simp [listRemove, listContains, hx, this, ih]
      · by_cases hx' : x == c' <;> simp [listRemove, listContains, hx, hx', ih]

theorem listRemove_of_not_contains (l : List String) (c : String)
    (h : listContains l c = false) : listRemove l c = l := by
  induction l with
  | nil => rfl
  | cons x xs ih =>
      by_cases hx : x == c
      · simp [listContains, hx] at h
      · simp [listContains, hx] at h
        simp [listRemove, hx, ih h]

theorem listRemove_append (a b : List String) (c : String) :
    listRemove (a ++ b) c = listRemove a c ++ listRemove b c := by
  induction a with
  | nil => rfl
  | cons x xs ih =>
      by_cases hx : x == c <;> simp [listRemove, hx, ih]

theorem getAssoc_setAssoc (l : List (String × String)) (n v : String) :
    getAssoc (setAssoc l n v) n = some v := by
  induction l with
  | nil => simp [setAssoc, getAssoc]
  | cons p rest ih =>
      obtain ⟨k, w⟩ := p
      by_cases hk : k == n
      · simp [setAssoc, getAssoc, hk]
      · simp [setAssoc, getAssoc, hk, ih]

/-- C2: the sequence-returning lookups `gebcn`, `gebtn` and `qsAll` each
return a fresh fixed-length list equal — in length and element order — to
the collection matched at call time; zero matches give the empty list
(a length-0 array, never a null).  The returned list is a pure value
built by the copy loop, so later document mutation cannot alter it. -/
theorem C2_lookups_snapshot (doc : Doc) (c t : String) (sel : Element → Bool)
    (scope : List Element) :
    Dom.gebcn doc c = getElementsByClassName doc c ∧
    (Dom.gebcn doc c).length = (getElementsByClassName doc c).length ∧
    (getElementsByClassName doc c = [] ↔ Dom.gebcn doc c = []) ∧
    Dom.gebtn doc t = getElementsByTagName doc t ∧
    (Dom.gebtn doc t).length = (getElementsByTagName doc t).length ∧
    (getElementsByTagName doc t = [] ↔ Dom.gebtn doc t = []) ∧
    Dom.qsAll sel scope = querySelectorAllNative sel scope ∧
    (Dom.qsAll sel scope).length = (querySelectorAllNative sel scope).length ∧
    (querySelectorAllNative sel scope = [] ↔ Dom.qsAll sel scope = []) := by
  have h1 := copyCollection_eq (getElementsByClassName doc c)
  have h2 := copyCollection_eq (getElementsByTagName doc t)
  have h3 := copyCollection_eq (querySelectorAllNative sel scope)
  simp [Dom.gebcn, Dom.gebtn, Dom.qsAll, h1, h2, h3]

/-- C3: after `show` the element reads as visible and after `hide` as not
visible; `visible(el, true)` sets the inline display to `"block"` and
returns `true`; `visible(el)` with the argument omitted mutates nothing
and returns `true` exactly when the inline display value differs from
`"none"`. -/
theorem C3_show_hide_visible (e : Element) :
    (Dom.visible (Dom.show' e) JSValue.undef).1 = true ∧
    (Dom.visible (Dom.hide e) JSValue.undef).1 = false ∧
    (Dom.visible e (JSValue.bool true)).2.data.styleDisplay = "block" ∧
    (Dom.visible e (JSValue.bool true)).1 = true ∧
    ((Dom.visible e JSValue.undef).1 = true ↔ e.data.styleDisplay ≠ "none") ∧
    (Dom.visible e JSValue.undef).2 = e := by
  refine ⟨rfl, rfl, rfl, rfl, ?_, rfl⟩
  simp [Dom.visible, bne_iff_ne]

/-- C4: `text` applied to a supplied non-string value stringifies it,
stores the string as the text content, returns it, and a subsequent
argument-free `text` read returns the same string. -/
theorem C4_text_stringifies (e : Element) (v : JSValue)
    (hs : v.isString = false) (hu : v.isUndefined = false) :
    (Dom.text e v).1 = v.toJSString ∧
    (Dom.text e v).2.data.textContent = some v.toJSString ∧
    (Dom.text (Dom.text e v).2 JSValue.undef).1 = v.toJSString := by
  cases v with
  | undef => simp [JSValue.isUndefined] at hu
  | str s => simp [JSValue.isString] at hs
  | null => exact ⟨rfl, rfl, rfl⟩
  | num n => exact ⟨rfl, rfl, rfl⟩
  | bool b => exact ⟨rfl, rfl, rfl⟩

/-- C4 witness: `text(el, 42)` stores and returns `"42"`, and reading the
text back afterwards yields `"42"`. -/
theorem C4_witness :
    (Dom.text elSample (JSValue.num 42)).1 = "42" ∧
    (Dom.text elSample (JSValue.num 42)).2.data.textContent = some "42" ∧
    (Dom.text (Dom.text elSample (JSValue.num 42)).2 JSValue.undef).1 = "42" :=
  C4_text_stringifies elSample (JSValue.num 42) rfl rfl

/-- C10: for either boolean argument, `visible(el, b)` writes the display
style and reports back exactly `b`. -/
theorem C10_visible_reports_written (e : Element) (b : Bool) :
    (Dom.visible e (JSValue.bool b)).1 = b := by
  cases b <;> rfl

/-- C5: the attribute accessor returns `""` (never a null) when the
attribute is absent; and after writing a string `v` to an attribute, an
argument-free read of that attribute returns `v`. -/
theorem C5_attribute_get_set (e : Element) (name v : String) :
    (getAttribute e name = none → (Dom.attr e name JSValue.undef).1 = "") ∧
    (Dom.attr (Dom.attr e name (JSValue.str v)).2 name JSValue.undef).1 = v := by
  constructor
  · intro h
    simp [Dom.attr, h]
  · simp [Dom.attr, getAttribute, setAttribute, Element.withData, Element.data,
          getAssoc_setAssoc]

/-- C5 witness: on an element without `data-x`, the read returns `""`;
after setting `data-x` to `"v"`, the read returns `"v"`. -/
theorem C5_witness :
    (Dom.attr elSample "data-x" JSValue.undef).1 = "" ∧
    (Dom.attr (Dom.attr elSample "data-x" (JSValue.str "v")).2 "data-x"
      JSValue.undef).1 = "v" :=
  ⟨(C5_attribute_get_set elSample "data-x" "v").1 rfl,
   (C5_attribute_get_set elSample "data-x" "v").2⟩

/-- C6: `toggleClass` adds the class when absent and removes it when
present, and two successive toggles restore the element's original class
membership for every class name. -/
theorem C6_toggleClass_round_trip (e : Element) (c c' : String) :
    (classListContains e c = false →
      classListContains (Dom.toggleClass e c) c = true) ∧
    (classListContains e c = true →
      classListContains (Dom.toggleClass e c) c = false) ∧
    classListContains (Dom.toggleClass (Dom.toggleClass e c) c) c' =
      classListContains e c' := by
  obtain ⟨d, kids⟩ := e
  refine ⟨?_, ?_, ?_⟩
  · intro h
    simp only [classListContains, Element.data] at h
    simp [Dom.toggleClass, classListContains, classListAdd, classListRemove,
          Element.withData, Element.data, Element.children, h,
          listContains_append_single]
  · intro h
    simp only [classListContains, Element.data] at h
    simp [Dom.toggleClass, classListContains, classListAdd, classListRemove,
          Element.withData, Element.data, Element.children, h,
          listContains_listRemove_self]
  · by_cases h : listContains d.classList c
    · simp [Dom.toggleClass, classListContains, classListAdd, classListRemove,
            Element.withData, Element.data, Element.children, h,
            listContains_listRemove_self, listContains_append_single]
      by_cases hc : c = c'
      · subst hc; simp [h]
      · simp [listContains_listRemove_ne _ _ _ hc, beq_iff_eq, hc]
    · have hb : listContains d.classList c = false := by simpa using h
      have hrem : listRemove (d.classList ++ [c]) c = d.classList := by
        rw [listRemove_append, listRemove_of_not_contains _ _ hb]
        simp [listRemove]
      simp [Dom.toggleClass, classListContains, classListAdd, classListRemove,
            Element.withData, Element.data, Element.children, hb,
            listContains_append_single, hrem]

/-- C6 witness: toggling `"a"` on an element without it adds it; toggling
`"a"` on an element with it removes it; toggling twice leaves `"x"`
membership as it was. -/
theorem C6_witness :
    classListContains (Dom.toggleClass elSample "a") "a" = true ∧
    classListContains (Dom.toggleClass elWithA "a") "a" = false ∧
    classListContains (Dom.toggleClass (Dom.toggleClass elWithA "a") "a") "x" =
      classListContains elWithA "x" :=
  ⟨(C6_toggleClass_round_trip elSample "a" "x").1 rfl,
   (C6_toggleClass_round_trip elWithA "a" "x").2.1 rfl,
   (C6_toggleClass_round_trip elWithA "a" "x").2.2⟩

/-- C7 counterexample: for the pair `old = new = "a"` on an element that
carries class `"a"`, `swapClass` removes `"a"` and then adds it back, so
the element still contains `old` — the claim predicts it does not. -/
theorem C7_counterexample :
    classListContains (Dom.swapClass elWithA "a" "a") "a" = true := by
  decide

/-- C7 (amended): for distinct class names `old ≠ new`, after
`swapClass(el, old, new)` the element does not contain `old` and does
contain `new`, whatever its original membership; and the operation is
exactly the remove-then-add composition.  (When `old = new` the class
ends up present.) -/
theorem C7_swapClass (e : Element) (o n : String) (h : o ≠ n) :
    classListContains (Dom.swapClass e o n) o = false ∧
    classListContains (Dom.swapClass e o n) n = true ∧
    Dom.swapClass e o n = classListAdd (classListRemove e o) n := by
  obtain ⟨d, kids⟩ := e
  refine ⟨?_, ?_, rfl⟩
  · by_cases hn : listContains (listRemove d.classList o) n
    · simp [Dom.swapClass, classListAdd, classListRemove, classListContains,
            Element.withData, Element.data, Element.children, hn,
            listContains_listRemove_self]
    · have hn' : listContains (listRemove d.classList o) n = false := by
        simpa using hn
      have hno : (n == o) = false := by
        simp [beq_iff_eq]
        exact fun hx => h hx.symm
      simp [Dom.swapClass, classListAdd, classListRemove, classListContains,
            Element.withData, Element.data, Element.children, hn',
            listContains_append_single, listContains_listRemove_self, hno]
  · by_cases hn : listContains (listRemove d.classList o) n
    · simp [Dom.swapClass, classListAdd, classListRemove, classListContains,
            Element.withData, Element.data, Element.children, hn]
    · have hn' : listContains (listRemove d.classList o) n = false := by
        simpa using hn
      simp [Dom.swapClass, classListAdd, classListRemove, classListContains,
            Element.withData, Element.data, Element.children, hn',
            listContains_append_single]

/-- C7 witness: swapping `"a"` for `"b"` on an element with `"a"` leaves
it without `"a"`, with `"b"`, and equals remove-then-add. -/
theorem C7_witness :
    classListContains (Dom.swapClass elWithA "a" "b") "a" = false ∧
    classListContains (Dom.swapClass elWithA "a" "b") "b" = true ∧
    Dom.swapClass elWithA "a" "b" =
      classListAdd (classListRemove elWithA "a") "b" :=
  C7_swapClass elWithA "a" "b" (by decide)

/-- C9: `innerHtml` called with a supplied non-string argument is a pure
read — it returns the current innerHTML and leaves the element unchanged,
with no stringification — unlike `text` and `value`, which stringify a
supplied non-string argument and write it. -/
theorem C9_innerHtml_nonstring_is_read (e : Element) (x : JSValue)
    (hs : x.isString = false) (hu : x.isUndefined = false) :
    Dom.innerHtml e x = (e.data.innerHTML, e) ∧
    (Dom.text e x).2.data.textContent = some x.toJSString ∧
    (Dom.value e x).2.data.value = x.toJSString := by
  cases x with
  | undef => simp [JSValue.isUndefined] at hu
  | str s => simp [JSValue.isString] at hs
  | null => exact ⟨rfl, rfl, rfl⟩
  | num n => exact ⟨rfl, rfl, rfl⟩
  | bool b => exact ⟨rfl, rfl, rfl⟩

/-- C9 witness: `innerHtml(el, 42)` returns the current `"abc"` and leaves
the element unchanged, while `text(el, 42)` writes `"42"`. -/
theorem C9_witness :
    Dom.innerHtml elSample (JSValue.num 42) = ("abc", elSample) ∧
    (Dom.text elSample (JSValue.num 42)).2.data.textContent = some "42" ∧
    (Dom.value elSample (JSValue.num 42)).2.data.value = "42" :=
  C9_innerHtml_nonstring_is_read elSample (JSValue.num 42) rfl rfl

/-- C1 counterexample: `innerHtml` called with the supplied (non-undefined)
argument `42` on an element whose innerHTML is `"abc"` performs no write —
it returns the current `"abc"` and leaves the element unchanged — whereas
the claim predicts every supplied argument triggers a write. -/
theorem C1_counterexample :
    (JSValue.num 42).isUndefined = false ∧
    Dom.innerHtml elSample (JSValue.num 42) = ("abc", elSample) ∧
    (Dom.innerHtml elSample (JSValue.num 42)).2.data.innerHTML ≠ "42" :=
  ⟨rfl, rfl, by decide⟩

/-- C1 (amended): with the argument omitted (undefined), every accessor —
`text`, `value`, `innerHtml`, `checked`, `disabled`, `attribute` — is a
pure read returning the current value.  A supplied argument performs a
write returning the value read back afterward exactly when it has the
accessor's expected type: any non-undefined value for `text`/`value`
(stringified before assignment), a string for `innerHtml`/`attribute`,
a boolean for `checked`/`disabled`; a supplied argument of any other
type leaves those accessors pure reads. -/
theorem C1_accessor_contract (e : Element) (v w u : JSValue) (aname : String)
    (hv : v.isUndefined = false) (hw : w.isString = false)
    (hu : u.isBool = false) :
    Dom.text e JSValue.undef = (e.data.textContent.getD "", e) ∧
    Dom.value e JSValue.undef = (e.data.value, e) ∧
    Dom.innerHtml e JSValue.undef = (e.data.innerHTML, e) ∧
    Dom.checked e JSValue.undef = (e.data.checked, e) ∧
    Dom.disabled e JSValue.undef = (e.data.disabled, e) ∧
    Dom.attr e aname JSValue.undef = ((getAttribute e aname).getD "", e) ∧
    (Dom.text e v).2.data.textContent = some v.toJSString ∧
    (Dom.text e v).1 = (Dom.text (Dom.text e v).2 JSValue.undef).1 ∧
    (Dom.value e v).2.data.value = v.toJSString ∧
    (Dom.value e v).1 = (Dom.value (Dom.value e v).2 JSValue.undef).1 ∧
    (∀ s : String,
      (Dom.innerHtml e (JSValue.str s)).2.data.innerHTML = s ∧
      (Dom.innerHtml e (JSValue.str s)).1 =
        (Dom.innerHtml (Dom.innerHtml e (JSValue.str s)).2 JSValue.undef).1 ∧
      (Dom.attr e aname (JSValue.str s)).2 = setAttribute e aname s ∧
      (Dom.attr e aname (JSValue.str s)).1 =
        (Dom.attr (Dom.attr e aname (JSValue.str s)).2 aname
          JSValue.undef).1) ∧
    (Dom.innerHtml e w).2 = e ∧
    (Dom.attr e aname w).2 = e ∧
    (∀ b : Bool,
      (Dom.checked e (JSValue.bool b)).2.data.checked = b ∧
      (Dom.checked e (JSValue.bool b)).1 =
        (Dom.checked (Dom.checked e (JSValue.bool b)).2 JSValue.undef).1 ∧
      (Dom.disabled e (JSValue.bool b)).2.data.disabled = b ∧
      (Dom.disabled e (JSValue.bool b)).1 =
        (Dom.disabled (Dom.disabled e (JSValue.bool b)).2
          JSValue.undef).1) ∧
    (Dom.checked e u).2 = e ∧
    (Dom.disabled e u).2 = e := by
  have hT : (Dom.text e v).2.data.textContent = some v.toJSString ∧
      (Dom.text e v).1 = (Dom.text (Dom.text e v).2 JSValue.undef).1 := by
    cases v with
    | undef => simp [JSValue.isUndefined] at hv
    | null => exact ⟨rfl, rfl⟩
    | str s => exact ⟨rfl, rfl⟩
    | num k => exact ⟨rfl, rfl⟩
    | bool b => exact ⟨rfl, rfl⟩
  have hV : (Dom.value e v).2.data.value = v.toJSString ∧
      (Dom.value e v).1 = (Dom.value (Dom.value e v).2 JSValue.undef).1 := by
    cases v with
    | undef => simp [JSValue.isUndefined] at hv
    | null => exact ⟨rfl, rfl⟩
    | str s => exact ⟨rfl, rfl⟩
    | num k => exact ⟨rfl, rfl⟩
    | bool b => exact ⟨rfl, rfl⟩
  have hW1 : (Dom.innerHtml e w).2 = e := by
    cases w with
    | str s => simp [JSValue.isString] at hw
    | undef => rfl
    | null => rfl
    | num k => rfl
    | bool b => rfl
  have hW2 : (Dom.attr e aname w).2 = e := by
    cases w with
    | str s => simp [JSValue.isString] at hw
    | undef => rfl
    | null => rfl
    | num k => rfl
    | bool b => rfl
  have hU1 : (Dom.checked e u).2 = e := by
    cases u with
    | bool b => simp [JSValue.isBool] at hu
    | undef => rfl
    | null => rfl
    | num k => rfl
    | str s => rfl
  have hU2 : (Dom.disabled e u).2 = e := by
    cases u with
    | bool b => simp [JSValue.isBool] at hu
    | undef => rfl
    | null => rfl
    | num k => rfl
    | str s => rfl
  exact ⟨rfl, rfl, rfl, rfl, rfl, rfl, hT.1, hT.2, hV.1, hV.2,
    fun s => ⟨rfl, rfl, rfl, rfl⟩, hW1, hW2,
    fun b => ⟨rfl, rfl, rfl, rfl⟩, hU1, hU2⟩

/-- C1 witness: `text`/`value` write the stringified `7`; a boolean passed
to `innerHtml`/`attribute` and a string passed to `checked`/`disabled`
leave the element unchanged. -/
theorem C1_witness :
    (Dom.text elSample (JSValue.num 7)).2.data.textContent = some "7" ∧
    (Dom.value elSample (JSValue.num 7)).2.data.value = "7" ∧
    (Dom.innerHtml elSample (JSValue.bool true)).2 = elSample ∧
    (Dom.attr elSample "data-y" (JSValue.bool true)).2 = elSample ∧
    (Dom.checked elSample (JSValue.str "x")).2 = elSample ∧
    (Dom.disabled elSample (JSValue.str "x")).2 = elSample := by
  obtain ⟨r1, r2, r3, r4, r5, r6, t1, t2, v1, v2, hs, w1, w2, hb, u1, u2⟩ :=
    C1_accessor_contract elSample (JSValue.num 7) (JSValue.bool true)
      (JSValue.str "x") "data-y" rfl rfl rfl
  exact ⟨t1, v1, w1, w2, u1, u2⟩

/-- C8: the locator operations raise no failure on any input: an id, class,
tag or selector with no match yields `none` or the empty list, and an
out-of-range child index yields `none` rather than an error. -/
theorem C8_locators_no_failure (doc : Doc) (id c t : String)
    (sel : Element → Bool) (scope : List Element) (e : Element) (i : Nat) :
    ((∀ x ∈ doc.elements, (x.data.idAttr == id) = false) →
      Dom.gebid doc id = none) ∧
    ((∀ x ∈ doc.elements, hasClass x c = false) → Dom.gebcn doc c = []) ∧
    ((∀ x ∈ doc.elements, (x.data.tagName == t) = false) →
      Dom.gebtn doc t = []) ∧
    ((∀ x ∈ scope, sel x = false) → Dom.qs sel scope = none) ∧
    ((∀ x ∈ scope, sel x = false) → Dom.qsAll sel scope = []) ∧
    (e.children.length ≤ i → Dom.child e i = none) := by
  refine ⟨?_, ?_, ?_, ?_, ?_, ?_⟩
  · intro h
    simp only [Dom.gebid, getElementById, List.find?_eq_none]
    intro x hx
    simp [h x hx]
  · intro h
    simp only [Dom.gebcn, copyCollection_eq, getElementsByClassName,
               List.filter_eq_nil_iff]
    intro x hx
    simp [h x hx]
  · intro h
    simp only [Dom.gebtn, copyCollection_eq, getElementsByTagName,
               List.filter_eq_nil_iff]
    intro x hx
    simp [h x hx]
  · intro h
    simp only [Dom.qs, querySelectorNative, List.find?_eq_none]
    intro x hx
    simp [h x hx]
  · intro h
    simp only [Dom.qsAll, copyCollection_eq, querySelectorAllNative,
               List.filter_eq_nil_iff]
    intro x hx
    simp [h x hx]
  · intro h
    simp only [Dom.child]
    exact List.getElem?_eq_none h

/-- C8 witness: the locators return `none` or `[]` on an empty document, a
never-matching selector, and a child index past the end. -/
theorem C8_witness :
    Dom.gebid docEmpty "missing" = none ∧
    Dom.gebcn docEmpty "c" = [] ∧
    Dom.gebtn docEmpty "div" = [] ∧
    Dom.qs selFalse [elSample] = none ∧
    Dom.qsAll selFalse [elSample] = [] ∧
    Dom.child elSample 3 = none := by
  have h := C8_locators_no_failure docEmpty "missing" "c" "div" selFalse
    [elSample] elSample 3
  refine ⟨h.1 ?_, h.2.1 ?_, h.2.2.1 ?_, h.2.2.2.1 ?_, h.2.2.2.2.1 ?_,
    h.2.2.2.2.2 (by decide)⟩
  · intro x hx; simp [docEmpty] at hx
  · intro x hx; simp [docEmpty] at hx
  · intro x hx; simp [docEmpty] at hx
  · intro x hx; rfl
  · intro x hx; rfl
